import Mathlib

/-!
Verification of the FTPVita session engine (`src/libftpvita/ftpvita.c`).

The development is a shallow embedding of the parts of `ftpvita.c` that the
claims are about:

* C strings (paths, command arguments) are `List Char`; a `NULL` result of
  `get_vita_path` is `Option.none`.
* Platform I/O (`sceIo*`, `sceNet*`, `sceKernel*`) is modelled at its
  boundary: handlers are pure functions that thread the relevant client
  state and emit a trace of boundary events (`Ev` / `FiniEv`) in the order
  the C code performs the calls.  Outcomes of platform calls that the C
  code branches on (open success, receive results, directory probes, the
  rename result) are inputs of the corresponding Lean function.
* Machine integers are `Nat` with explicit `% 2 ^ w` / shifts where the C
  code masks bytes.

Definitions keep the names of the C functions they embed.
-/

namespace FTPVita

/-- Characters of a path or command argument (a C string in `ftpvita.c`). -/
abbrev Path := List Char

/-- `DataConnectionType` from `ftpvita.c`. -/
inductive DataConnectionType where
  | NONE
  | ACTIVE
  | PASSIVE
deriving DecidableEq, Repr

/-- `MAX_DEVICES` from `ftpvita.c`. -/
def MAX_DEVICES : Nat := 16

/-- Index of the last occurrence of `c` in `l` (C `strrchr`, as an index;
`Option.none` is `strrchr`'s `NULL`). -/
def strrchr_idx : List Char → Char → Option Nat
  | [], _ => Option.none
  | a :: as, c =>
    match strrchr_idx as c with
    | some i => some (i + 1)
    | Option.none => if a = c then some 0 else Option.none

/-- `get_vita_path`: strip the leading FTP separator; a path of length ≤ 1
has no native translation (the C function returns `NULL`). -/
def get_vita_path (path : Path) : Option Path :=
  if 1 < path.length then some (path.drop 1) else Option.none

/-- `path_is_at_root`: the last `/` of the path is also its final character
(C: `strrchr(path, '/') == path + strlen(path) - 1`). -/
def path_is_at_root (p : Path) : Prop :=
  strrchr_idx p '/' = some (p.length - 1)

instance (p : Path) : Decidable (path_is_at_root p) :=
  inferInstanceAs (Decidable (strrchr_idx p '/' = some (p.length - 1)))

/-- `dir_up` from `ftpvita.c`: truncate at the last `/`; a mount-root path
(or a single-character path) collapses to `/`; a remaining bare `mount:`
gets a trailing `/` appended.  The `strrchr = NULL` case cannot occur on
the absolute paths the server keeps (they contain `/`); the C code would
fault there, the model returns the path unchanged. -/
def dir_up (p : Path) : Path :=
  if p.length = 1 then ['/']
  else if path_is_at_root p then ['/']
  else
    match strrchr_idx p '/' with
    | some i =>
      let t := p.take i
      if strrchr_idx t '/' = some 0 then t ++ ['/'] else t
    | Option.none => p

/-- The `tmp_path` computation of `cmd_CWD_func`: absolute arguments replace
the path, relative ones are joined (without an extra `/` at a mount root),
and a resulting bare `/mount:` gets a `/` appended. -/
def cwd_normalize (cur a : Path) : Path :=
  let tmp :=
    if a.headD ' ' = '/' then a
    else if path_is_at_root cur then cur ++ a
    else cur ++ '/' :: a
  if strrchr_idx tmp '/' = some 0 then tmp ++ ['/'] else tmp

/-- Result of one `CWD` command: the new `cur_path`, the control replies
(by status code, in order), and the arguments of the `sceIoDopen` existence
probes performed. -/
structure CwdResult where
  cur : Path
  replies : List Nat
  probes : List (Option Path)
deriving DecidableEq, Repr

/-- `cmd_CWD_func` from `ftpvita.c`.  `arg` is the parsed command argument
(`Option.none` when `sscanf` matched nothing), `probe` is the outcome of
`sceIoDopen` on a native path. -/
def cmd_CWD_func (cur : Path) (arg : Option Path) (probe : Option Path → Bool) :
    CwdResult :=
  match arg with
  | Option.none => ⟨cur, [500], []⟩
  | some a =>
    if a = ['/'] then ⟨a, [250], []⟩
    else if a = ['.', '.'] then ⟨dir_up cur, [250], []⟩
    else
      let tmp := cwd_normalize cur a
      if tmp = ['/'] then ⟨tmp, [250], []⟩
      else if probe (get_vita_path tmp) then ⟨tmp, [250], [get_vita_path tmp]⟩
      else ⟨cur, [550], [get_vita_path tmp]⟩

/-- `cmd_CDUP_func` from `ftpvita.c`: `dir_up` on the current path, reply 200. -/
def cmd_CDUP_func (cur : Path) : Path × List Nat :=
  (dir_up cur, [200])

/-- `gen_filepath` from `ftpvita.c`: an argument starting with `/` is the
full virtual path, otherwise it is appended to the current path with a `/`. -/
def gen_filepath (cur cmd_path : Path) : Path :=
  if cmd_path.headD ' ' = '/' then cmd_path else cur ++ '/' :: cmd_path

/-- `cmd_RNTO_func` from `ftpvita.c`: resolve the destination, attempt the
rename (`renameOk` is the outcome of `sceIoRename`), reply 550 first when it
failed, then reply 226 unconditionally.  The returned list is the sequence
of control-reply status codes. -/
def cmd_RNTO_func (rename_path cur a : Path)
    (renameOk : Path → Option Path → Bool) : List Nat :=
  let path_dst := gen_filepath cur a
  let vita_path_dst := get_vita_path path_dst
  (if renameOk rename_path vita_path_dst then [] else [550]) ++ [226]

/-- Boundary events emitted by the transfer handlers, in program order. -/
inductive Ev where
  | ctrl (code : Nat)
  | netConnect
  | netAccept
  | closeDataSock
  | closePasvSock
  | sendData (n : Nat)
  | ioWrite (n : Nat)
  | ioOpen (path : Option Path)
  | ioLseek
  | ioClose
  | ioRemove (path : Option Path)
  | dopen (path : Option Path)
  | dclose
  | dataMsg (line : Path)
deriving DecidableEq, Repr

/-- `client_open_data_connection`: connect out in active mode, accept on the
pre-listened socket in passive mode. -/
def client_open_data_connection (t : DataConnectionType) : List Ev :=
  if t = .ACTIVE then [Ev.netConnect] else [Ev.netAccept]

/-- `client_close_data_connection`: close the data socket (and the accepted
passive socket in passive mode) and reset the mode to `NONE`. -/
def client_close_data_connection (t : DataConnectionType) :
    DataConnectionType × List Ev :=
  (.NONE, Ev.closeDataSock :: (if t = .PASSIVE then [Ev.closePasvSock] else []))

/-- `send_file` from `ftpvita.c` (the RETR payload).  `openOk` is the outcome
of `sceIoOpen`, `allocOk` of `malloc`, `chunks` the sizes of the successive
positive `sceIoRead` results.  Returns the new data-connection mode and the
event trace. -/
def send_file (t : DataConnectionType) (path : Option Path)
    (openOk allocOk : Bool) (chunks : List Nat) : DataConnectionType × List Ev :=
  if openOk = false then (t, [Ev.ioOpen path, Ev.ctrl 550])
  else if allocOk = false then (t, [Ev.ioOpen path, Ev.ctrl 550])
  else
    let r := client_close_data_connection t
    (r.1, Ev.ioOpen path :: client_open_data_connection t ++ [Ev.ctrl 150] ++
      chunks.map Ev.sendData ++ [Ev.ioClose, Ev.ctrl 226] ++ r.2)

/-- `receive_file` from `ftpvita.c` (the STOR payload).  `chunks` are the
positive `sceNetRecv` results (each written to the file), `final` the
result that ends the loop (`0` clean EOF, negative an error/abort). -/
def receive_file (t : DataConnectionType) (path : Option Path)
    (openOk allocOk : Bool) (chunks : List Nat) (final : Int) :
    DataConnectionType × List Ev :=
  if openOk = false then (t, [Ev.ioOpen path, Ev.ctrl 550])
  else if allocOk = false then (t, [Ev.ioOpen path, Ev.ctrl 550])
  else
    let r := client_close_data_connection t
    (r.1, Ev.ioOpen path :: client_open_data_connection t ++ [Ev.ctrl 150] ++
      chunks.map Ev.ioWrite ++ [Ev.ioClose] ++
      (if final = 0 then [Ev.ctrl 226] else [Ev.ioRemove path, Ev.ctrl 426]) ++
      r.2)

/-- `append_file` from `ftpvita.c` (the APPE payload): like `receive_file`
but the file is opened without truncation and seeked to its end first. -/
def append_file (t : DataConnectionType) (path : Option Path)
    (openOk allocOk : Bool) (chunks : List Nat) (final : Int) :
    DataConnectionType × List Ev :=
  if openOk = false then (t, [Ev.ioOpen path, Ev.ctrl 550])
  else if allocOk = false then (t, [Ev.ioOpen path, Ev.ioLseek, Ev.ctrl 550])
  else
    let r := client_close_data_connection t
    (r.1, Ev.ioOpen path :: Ev.ioLseek :: client_open_data_connection t ++
      [Ev.ctrl 150] ++ chunks.map Ev.ioWrite ++ [Ev.ioClose] ++
      (if final = 0 then [Ev.ctrl 226] else [Ev.ioRemove path, Ev.ctrl 426]) ++
      r.2)

/-- `send_LIST` from `ftpvita.c`: at `/` the mount table is listed, otherwise
the target directory is probed with `sceIoDopen` (`dopenOk`) and its entries
are streamed; `entries` are the formatted lines sent over the data channel. -/
def send_LIST (t : DataConnectionType) (path : Path) (dopenOk : Bool)
    (entries : List Path) : DataConnectionType × List Ev :=
  if path = ['/'] then
    let r := client_close_data_connection t
    (r.1, [Ev.ctrl 150] ++ client_open_data_connection t ++
      entries.map Ev.dataMsg ++ r.2 ++ [Ev.ctrl 226])
  else if dopenOk = false then
    (t, [Ev.dopen (get_vita_path path), Ev.ctrl 550])
  else
    let r := client_close_data_connection t
    (r.1, [Ev.dopen (get_vita_path path), Ev.ctrl 150] ++
      client_open_data_connection t ++ entries.map Ev.dataMsg ++ [Ev.dclose] ++
      r.2 ++ [Ev.ctrl 226])

/-- `cmd_RETR_func` from `ftpvita.c`: resolve the argument with
`gen_filepath`, translate with `get_vita_path` and hand the result (possibly
`NULL`) to `send_file`. -/
def cmd_RETR_func (t : DataConnectionType) (cur arg : Path)
    (openOk allocOk : Bool) (chunks : List Nat) : DataConnectionType × List Ev :=
  send_file t (get_vita_path (gen_filepath cur arg)) openOk allocOk chunks

/-- Position of the first occurrence of an event in a trace. -/
def evIdx (l : List Ev) (e : Ev) : Nat := l.findIdx (fun x => x == e)

/-- OS-side socket accounting: descriptors handed out by `sceNetSocket` and
the set of descriptors currently open. -/
structure NetState where
  nextFd : Nat
  openFds : List Nat
deriving DecidableEq, Repr

/-- The per-client data-channel fields of `ClientInfo` that `cmd_PASV_func`
touches: the current `data_sockfd` (none before any PORT/PASV) and the
connection mode. -/
structure DataChan where
  data_sockfd : Option Nat
  data_con_type : DataConnectionType
deriving DecidableEq, Repr

/-- `sceNetSocket` at its boundary: returns a fresh descriptor and records
it as open. -/
def sceNetSocket (ns : NetState) : Nat × NetState :=
  (ns.nextFd, ⟨ns.nextFd + 1, ns.nextFd :: ns.openFds⟩)

/-- The six numbers of the `227 Entering Passive Mode (...)` reply, exactly
as `cmd_PASV_func` computes them: the four bytes of `vita_addr.s_addr` from
bit 0 upward, then bits 0–7 and bits 8–15 of the bound socket's `sin_port`
field (C masks with `& 0xFF`, i.e. `% 256`). -/
def cmd_PASV_octets (s_addr sin_port : Nat) : List Nat :=
  [(s_addr >>> 0) % 256, (s_addr >>> 8) % 256, (s_addr >>> 16) % 256,
   (s_addr >>> 24) % 256, (sin_port >>> 0) % 256, (sin_port >>> 8) % 256]

/-- `cmd_PASV_func` from `ftpvita.c`: create a fresh data socket
(bind/listen on an ephemeral port), report the address/port octets, and set
passive mode.  The previous `DataChan` contents are overwritten without any
`sceNetSocketClose`; `picked_sin_port` is the `sin_port` field returned by
`sceNetGetsockname`. -/
def cmd_PASV_func (ns : NetState) (ch : DataChan) (s_addr picked_sin_port : Nat) :
    NetState × DataChan × List Nat :=
  let r := sceNetSocket ns
  (r.2, ⟨some r.1, .PASSIVE⟩, cmd_PASV_octets s_addr picked_sin_port)

/-- The fields of a registered `ClientInfo` that `client_list_thread_end`
reads. -/
structure Session where
  thid : Nat
  ctrl_sockfd : Nat
  data_sockfd : Nat
  pasv_sockfd : Nat
  data_con_type : DataConnectionType
deriving DecidableEq, Repr

/-- Boundary events of the shutdown path, in program order. -/
inductive FiniEv where
  | sockAbort (fd flags : Nat)
  | waitThreadEnd (thid : Nat)
  | sockClose (fd : Nat)
  | deleteMutex
deriving DecidableEq, Repr

/-- `SCE_NET_SOCKET_ABORT_FLAG_RCV_PRESERVATION` (abort only the receive
direction of the socket, per the comment in `client_list_thread_end`). -/
def SCE_NET_SOCKET_ABORT_FLAG_RCV_PRESERVATION : Nat := 1

/-- `SCE_NET_SOCKET_ABORT_FLAG_SND_PRESERVATION`. -/
def SCE_NET_SOCKET_ABORT_FLAG_SND_PRESERVATION : Nat := 2

/-- `data_abort_flags` from `client_list_thread_end`: both directions. -/
def data_abort_flags : Nat :=
  SCE_NET_SOCKET_ABORT_FLAG_RCV_PRESERVATION |||
    SCE_NET_SOCKET_ABORT_FLAG_SND_PRESERVATION

/-- The loop body of `client_list_thread_end` for one registered client:
abort the control socket's receive direction, abort both directions of an
open data connection (and of the accepted passive socket in passive mode),
then wait for the client's thread to end. -/
def session_end_events (it : Session) : List FiniEv :=
  [FiniEv.sockAbort it.ctrl_sockfd SCE_NET_SOCKET_ABORT_FLAG_RCV_PRESERVATION] ++
    (if it.data_con_type ≠ .NONE then
      [FiniEv.sockAbort it.data_sockfd data_abort_flags] ++
        (if it.data_con_type = .PASSIVE then
          [FiniEv.sockAbort it.pasv_sockfd data_abort_flags]
        else [])
    else []) ++
    [FiniEv.waitThreadEnd it.thid]

/-- `client_list_thread_end` from `ftpvita.c`: the loop over the registered
client list, in list order.  `sceKernelWaitThreadEnd` returns only once the
thread has exited, so every `waitThreadEnd` event in the trace is a join
completed before the function returns. -/
def client_list_thread_end (client_list : List Session) : List FiniEv :=
  (client_list.map session_end_events).flatten

/-- `ftpvita_fini` from `ftpvita.c`: when initialized, close the server
socket, join the server thread, run `client_list_thread_end`, and delete
the registry mutex.  The trace is the complete sequence of boundary calls
of the shutdown; the call returns after the last event. -/
def ftpvita_fini (ftp_initialized : Bool) (server_sockfd server_thid : Nat)
    (client_list : List Session) : List FiniEv :=
  if ftp_initialized then
    FiniEv.sockClose server_sockfd :: FiniEv.waitThreadEnd server_thid ::
      (client_list_thread_end client_list ++ [FiniEv.deleteMutex])
  else []

/-- One slot of `device_list`. -/
structure Device where
  name : Path
  valid : Bool
deriving DecidableEq, Repr

/-- `ftpvita_add_device`: linear scan over `device_list` (a 16-slot array,
modelled as a 16-element list); the name is stored in the first invalid
slot, which is marked valid, returning 1; with no invalid slot, 0. -/
def ftpvita_add_device : List Device → Path → List Device × Nat
  | [], _ => ([], 0)
  | d :: ds, n =>
    if d.valid = false then (⟨n, true⟩ :: ds, 1)
    else
      let r := ftpvita_add_device ds n
      (d :: r.1, r.2)

/-- `ftpvita_del_device`: linear scan; the first slot whose name matches is
invalidated and 1 returned — the valid flag is not consulted. -/
def ftpvita_del_device : List Device → Path → List Device × Nat
  | [], _ => ([], 0)
  | d :: ds, n =>
    if d.name = n then ({ d with valid := false } :: ds, 1)
    else
      let r := ftpvita_del_device ds n
      (d :: r.1, r.2)

/-- Abstract description of the current paths reachable by CWD descents:
`pathOf []` is the namespace root, `pathOf [m]` the root of mount `m`
(trailing slash form), and a longer list a directory inside a mount. -/
def compsSuffix (cs : List Path) : List Char :=
  (cs.map (fun c => '/' :: c)).flatten

/-- The current path after descending through the named components. -/
def pathOf : List Path → Path
  | [] => ['/']
  | [m] => '/' :: m ++ ['/']
  | m :: c :: cs => '/' :: m ++ compsSuffix (c :: cs)

/-! ### General lemmas about the embedded string primitives -/

theorem strrchr_idx_eq_none {c : Char} {l : List Char} (h : c ∉ l) :
    strrchr_idx l c = Option.none := by
  induction l with
  | nil => rfl
  | cons a as ih =>
    have ha : a ≠ c := fun e => h (e ▸ List.mem_cons_self a as)
    have has : c ∉ as := fun e => h (List.mem_cons_of_mem a e)
    simp [strrchr_idx, ih has, ha]

theorem strrchr_idx_append (xs ys : List Char) (c : Char) :
    strrchr_idx (xs ++ ys) c =
      match strrchr_idx ys c with
      | some i => some (xs.length + i)
      | Option.none => strrchr_idx xs c := by
  induction xs with
  | nil => cases h : strrchr_idx ys c <;> simp [strrchr_idx, h]
  | cons a as ih =>
    cases h : strrchr_idx ys c with
    | none =>
      simp only [h] at ih
      cases h2 : strrchr_idx as c with
      | none => simp [strrchr_idx, ih, h2, h]
      | some j => simp [strrchr_idx, ih, h2, h]
    | some i =>
      simp only [h] at ih
      simp only [List.cons_append, strrchr_idx, ih, h, List.length_cons]
      simp only [List.append_eq, ih]
      exact congrArg some (by omega)

theorem strrchr_idx_slash_cons {a : Path} (h : '/' ∉ a) :
    strrchr_idx ('/' :: a) '/' = some 0 := by
  have : ('/' :: a) = ['/'] ++ a := rfl
  rw [this, strrchr_idx_append, strrchr_idx_eq_none h]
  rfl

/-! ### Claim C1: shutdown aborts and joins every registered session -/

theorem session_end_events_sublist (s : Session) :
    List.Sublist
      [FiniEv.sockAbort s.ctrl_sockfd SCE_NET_SOCKET_ABORT_FLAG_RCV_PRESERVATION,
       FiniEv.waitThreadEnd s.thid] (session_end_events s) := by
  unfold session_end_events
  rw [List.append_assoc]
  exact List.Sublist.cons₂ _ (List.sublist_append_right _ _)

theorem mem_session_end_of_mem {e : FiniEv} {s : Session} {cs : List Session}
    (hs : s ∈ cs) (he : e ∈ session_end_events s) :
    e ∈ client_list_thread_end cs := by
  exact List.mem_flatten.2 ⟨session_end_events s, List.mem_map_of_mem _ hs, he⟩

theorem client_list_thread_end_sublist_fini (ssfd sthid : Nat)
    (cs : List Session) :
    List.Sublist (client_list_thread_end cs) (ftpvita_fini true ssfd sthid cs) := by
  unfold ftpvita_fini
  simp only [if_pos rfl]
  exact List.Sublist.cons _ (List.Sublist.cons _ (List.sublist_append_left _ _))

/-- Claim C1: when `ftpvita_fini` runs with sessions registered, the
shutdown path aborts the receive direction of each registered session's
control socket, aborts both directions of an open data connection
(including the accepted passive socket in passive mode), and performs a
`sceKernelWaitThreadEnd` join on each registered session's thread after its
aborts; since the emitted trace is the complete behaviour of the call, each
join completes before `ftpvita_fini` returns, so no registered session
thread outlives the call. -/
theorem ftpvita_fini_joins_every_session (ssfd sthid : Nat)
    (cs : List Session) (s : Session) (hs : s ∈ cs) :
    (List.Sublist
      [FiniEv.sockAbort s.ctrl_sockfd SCE_NET_SOCKET_ABORT_FLAG_RCV_PRESERVATION,
       FiniEv.waitThreadEnd s.thid] (ftpvita_fini true ssfd sthid cs)) ∧
    (s.data_con_type ≠ .NONE →
      FiniEv.sockAbort s.data_sockfd data_abort_flags ∈
        ftpvita_fini true ssfd sthid cs) ∧
    (s.data_con_type = .PASSIVE →
      FiniEv.sockAbort s.pasv_sockfd data_abort_flags ∈
        ftpvita_fini true ssfd sthid cs) ∧
    FiniEv.waitThreadEnd s.thid ∈ ftpvita_fini true ssfd sthid cs := by
  have hsub : List.Sublist (session_end_events s) (client_list_thread_end cs) :=
    List.sublist_flatten_of_mem (List.mem_map_of_mem _ hs)
  have hfin := client_list_thread_end_sublist_fini ssfd sthid cs
  refine ⟨((session_end_events_sublist s).trans hsub).trans hfin, ?_, ?_, ?_⟩
  · intro h
    refine hfin.mem (mem_session_end_of_mem hs ?_)
    simp [session_end_events, h]
  · intro h
    refine hfin.mem (mem_session_end_of_mem hs ?_)
    have h' : s.data_con_type ≠ .NONE := by simp [h]
    simp [session_end_events, h, h']
  · refine hfin.mem (mem_session_end_of_mem hs ?_)
    simp [session_end_events]

theorem ftpvita_fini_joins_every_session_witness :
    (Session.mk 7 10 11 12 .PASSIVE ∈ [Session.mk 7 10 11 12 .PASSIVE]) ∧
    ((List.Sublist
       [FiniEv.sockAbort 10 SCE_NET_SOCKET_ABORT_FLAG_RCV_PRESERVATION,
        FiniEv.waitThreadEnd 7]
       (ftpvita_fini true 3 4 [Session.mk 7 10 11 12 .PASSIVE])) ∧
     ((Session.mk 7 10 11 12 .PASSIVE).data_con_type ≠ .NONE →
       FiniEv.sockAbort 11 data_abort_flags ∈
         ftpvita_fini true 3 4 [Session.mk 7 10 11 12 .PASSIVE]) ∧
     ((Session.mk 7 10 11 12 .PASSIVE).data_con_type = .PASSIVE →
       FiniEv.sockAbort 12 data_abort_flags ∈
         ftpvita_fini true 3 4 [Session.mk 7 10 11 12 .PASSIVE]) ∧
     FiniEv.waitThreadEnd 7 ∈ ftpvita_fini true 3 4 [Session.mk 7 10 11 12 .PASSIVE]) :=
  ⟨by decide,
   ftpvita_fini_joins_every_session 3 4 [Session.mk 7 10 11 12 .PASSIVE]
     (Session.mk 7 10 11 12 .PASSIVE) (by decide)⟩

/-! ### Claim C4: RNTO replies -/

/-- Claim C4: `cmd_RNTO_func` always ends its replies with the 226
completion line; when the rename fails the replies are exactly
`[550, 226]` (the failure notice precedes the unconditional completion
notice), and on success exactly `[226]`. -/
theorem cmd_RNTO_double_reply (rename_path cur a : Path)
    (renameOk : Path → Option Path → Bool) :
    ((cmd_RNTO_func rename_path cur a renameOk).getLast? = some 226) ∧
    (renameOk rename_path (get_vita_path (gen_filepath cur a)) = false →
      cmd_RNTO_func rename_path cur a renameOk = [550, 226]) ∧
    (renameOk rename_path (get_vita_path (gen_filepath cur a)) = true →
      cmd_RNTO_func rename_path cur a renameOk = [226]) := by
  cases h : renameOk rename_path (get_vita_path (gen_filepath cur a)) <;>
    simp [cmd_RNTO_func, h]

theorem cmd_RNTO_double_reply_witness :
    ((cmd_RNTO_func ['s'] ['/'] ['d'] (fun _ _ => false)).getLast? = some 226) ∧
    (false = false → cmd_RNTO_func ['s'] ['/'] ['d'] (fun _ _ => false) = [550, 226]) ∧
    (false = true → cmd_RNTO_func ['s'] ['/'] ['d'] (fun _ _ => false) = [226]) :=
  cmd_RNTO_double_reply ['s'] ['/'] ['d'] (fun _ _ => false)

/-! ### Claim C9: the PASV reply octets -/

/-- Claim C9: the six numbers of the 227 reply are the four bytes of the
server address field in ascending byte order, then the low byte
(`port % 256`) and the high byte (`port / 256`) of the port value as bound
on the listening data socket (the `sin_port` field that `sceNetGetsockname`
reports). -/
theorem pasv_reply_port_octets (s_addr sin_port : Nat)
    (h1 : s_addr < 2 ^ 32) (h2 : sin_port < 2 ^ 16) :
    cmd_PASV_octets s_addr sin_port =
      [s_addr % 256, s_addr / 2 ^ 8 % 256, s_addr / 2 ^ 16 % 256,
       s_addr / 2 ^ 24, sin_port % 256, sin_port / 2 ^ 8] := by
  norm_num at h1 h2
  simp only [cmd_PASV_octets, Nat.shiftRight_eq_div_pow]
  norm_num
  omega

theorem pasv_reply_port_octets_witness :
    16909060 < 2 ^ 32 ∧ 5001 < 2 ^ 16 ∧
    cmd_PASV_octets 16909060 5001 =
      [16909060 % 256, 16909060 / 2 ^ 8 % 256, 16909060 / 2 ^ 16 % 256,
       16909060 / 2 ^ 24, 5001 % 256, 5001 / 2 ^ 8] :=
  ⟨by norm_num, by norm_num,
   pasv_reply_port_octets 16909060 5001 (by norm_num) (by norm_num)⟩

/-! ### Claim C10: the device table -/

theorem ftpvita_add_device_full (l : List Device) (n : Path)
    (h : ∀ d ∈ l, d.valid = true) : ftpvita_add_device l n = (l, 0) := by
  induction l with
  | nil => rfl
  | cons d ds ih =>
    have hd : d.valid = true := h d (List.mem_cons_self d ds)
    have hds := ih (fun x hx => h x (List.mem_cons_of_mem d hx))
    simp [ftpvita_add_device, hd, hds]

theorem ftpvita_add_device_first_invalid (l : List Device) (n : Path)
    (h : ∃ d ∈ l, d.valid = false) :
    ftpvita_add_device l n =
      (l.set (l.findIdx fun d => !d.valid) ⟨n, true⟩, 1) := by
  induction l with
  | nil => simp at h
  | cons d ds ih =>
    by_cases hd : d.valid = false
    · simp [ftpvita_add_device, hd, List.findIdx_cons]
    · have hd' : d.valid = true := by revert hd; cases d.valid <;> simp
      obtain ⟨x, hx, hxv⟩ := h
      rcases List.mem_cons.mp hx with rfl | hx'
      · exact absurd hxv (by simp [hd'])
      · have := ih ⟨x, hx', hxv⟩
        simp [ftpvita_add_device, hd', List.findIdx_cons, this]

theorem ftpvita_del_device_ret (l : List Device) (n : Path) :
    (ftpvita_del_device l n).2 = if (l.any fun d => d.name == n) then 1 else 0 := by
  induction l with
  | nil => rfl
  | cons d ds ih =>
    by_cases hd : d.name = n <;> simp [ftpvita_del_device, hd, ih]

/-- Claim C10: `ftpvita_add_device` returns 0 and leaves the 16-slot table
unchanged when every slot is valid, and otherwise stores the name into the
first invalid slot, marks it valid and returns 1; `ftpvita_del_device`
returns 1 exactly when some slot's name matches, never consulting the valid
flag — in particular it reports success for a name occupying an
already-invalidated slot. -/
theorem device_table_add_del (l : List Device) (n : Path)
    (hlen : l.length = MAX_DEVICES) :
    ((∀ d ∈ l, d.valid = true) → ftpvita_add_device l n = (l, 0)) ∧
    ((∃ d ∈ l, d.valid = false) →
      ftpvita_add_device l n =
        (l.set (l.findIdx fun d => !d.valid) ⟨n, true⟩, 1)) ∧
    ((ftpvita_del_device l n).2 = if (l.any fun d => d.name == n) then 1 else 0) ∧
    (ftpvita_del_device (Device.mk ['u'] false :: List.replicate 15 (Device.mk ['x'] true)) ['u'] =
      (Device.mk ['u'] false :: List.replicate 15 (Device.mk ['x'] true), 1)) :=
  ⟨ftpvita_add_device_full l n, ftpvita_add_device_first_invalid l n,
   ftpvita_del_device_ret l n, by decide⟩

theorem device_table_add_del_witness :
    (List.replicate 16 (Device.mk ['x'] true)).length = MAX_DEVICES ∧
    (((∀ d ∈ List.replicate 16 (Device.mk ['x'] true), d.valid = true) →
        ftpvita_add_device (List.replicate 16 (Device.mk ['x'] true)) ['n'] =
          (List.replicate 16 (Device.mk ['x'] true), 0)) ∧
     ((∃ d ∈ List.replicate 16 (Device.mk ['x'] true), d.valid = false) →
        ftpvita_add_device (List.replicate 16 (Device.mk ['x'] true)) ['n'] =
          ((List.replicate 16 (Device.mk ['x'] true)).set
            ((List.replicate 16 (Device.mk ['x'] true)).findIdx fun d => !d.valid)
            ⟨['n'], true⟩, 1)) ∧
     ((ftpvita_del_device (List.replicate 16 (Device.mk ['x'] true)) ['n']).2 =
        if ((List.replicate 16 (Device.mk ['x'] true)).any fun d => d.name == ['n'])
        then 1 else 0) ∧
     (ftpvita_del_device (Device.mk ['u'] false :: List.replicate 15 (Device.mk ['x'] true)) ['u'] =
       (Device.mk ['u'] false :: List.replicate 15 (Device.mk ['x'] true), 1))) :=
  ⟨by decide, device_table_add_del (List.replicate 16 (Device.mk ['x'] true)) ['n'] (by decide)⟩

/-! ### Claim C2: step order of the transfer commands -/

/-- Claim C2 fails as stated on RETR/STOR/APPE: for a concrete RETR
invocation (`send_file`, active mode, successful open and allocation, one
chunk) the data channel is established strictly before the 150 preliminary
reply is sent, and the 226 final status line is sent strictly before the
data channel is closed — the opposite of the claimed order on both points. -/
theorem retr_order_counterexample :
    evIdx (send_file .ACTIVE (some ['a']) true true [5]).2 Ev.netConnect <
      evIdx (send_file .ACTIVE (some ['a']) true true [5]).2 (Ev.ctrl 150) ∧
    evIdx (send_file .ACTIVE (some ['a']) true true [5]).2 (Ev.ctrl 226) <
      evIdx (send_file .ACTIVE (some ['a']) true true [5]).2 Ev.closeDataSock := by
  decide

/-- Claim C2 (amended): in a successful transfer, LIST validates, sends 150,
establishes the data channel, streams, closes the channel (resetting the
mode to `NONE`) and finally sends 226; RETR/STOR/APPE instead open the
target file, establish the data channel, then send 150, stream, close the
file handle, send the terminal status line, and close the data channel
last (also resetting the mode to `NONE`). -/
theorem transfer_command_step_order :
    (∀ (t : DataConnectionType) (p : Option Path) (chunks : List Nat),
      send_file t p true true chunks =
        (.NONE, Ev.ioOpen p :: (client_open_data_connection t ++ [Ev.ctrl 150] ++
          chunks.map Ev.sendData ++ [Ev.ioClose, Ev.ctrl 226] ++
          Ev.closeDataSock :: (if t = .PASSIVE then [Ev.closePasvSock] else [])))) ∧
    (∀ (t : DataConnectionType) (p : Option Path) (chunks : List Nat) (final : Int),
      receive_file t p true true chunks final =
        (.NONE, Ev.ioOpen p :: (client_open_data_connection t ++ [Ev.ctrl 150] ++
          chunks.map Ev.ioWrite ++ [Ev.ioClose] ++
          (if final = 0 then [Ev.ctrl 226] else [Ev.ioRemove p, Ev.ctrl 426]) ++
          Ev.closeDataSock :: (if t = .PASSIVE then [Ev.closePasvSock] else [])))) ∧
    (∀ (t : DataConnectionType) (p : Option Path) (chunks : List Nat) (final : Int),
      append_file t p true true chunks final =
        (.NONE, Ev.ioOpen p :: Ev.ioLseek ::
          (client_open_data_connection t ++ [Ev.ctrl 150] ++
          chunks.map Ev.ioWrite ++ [Ev.ioClose] ++
          (if final = 0 then [Ev.ctrl 226] else [Ev.ioRemove p, Ev.ctrl 426]) ++
          Ev.closeDataSock :: (if t = .PASSIVE then [Ev.closePasvSock] else [])))) ∧
    (∀ (t : DataConnectionType) (dopenOk : Bool) (entries : List Path),
      send_LIST t ['/'] dopenOk entries =
        (.NONE, [Ev.ctrl 150] ++ client_open_data_connection t ++
          entries.map Ev.dataMsg ++
          Ev.closeDataSock :: (if t = .PASSIVE then [Ev.closePasvSock] else []) ++
          [Ev.ctrl 226])) ∧
    (∀ (t : DataConnectionType) (path : Path) (entries : List Path),
      path ≠ ['/'] →
      send_LIST t path true entries =
        (.NONE, [Ev.dopen (get_vita_path path), Ev.ctrl 150] ++
          client_open_data_connection t ++ entries.map Ev.dataMsg ++ [Ev.dclose] ++
          Ev.closeDataSock :: (if t = .PASSIVE then [Ev.closePasvSock] else []) ++
          [Ev.ctrl 226])) := by
  refine ⟨?_, ?_, ?_, ?_, ?_⟩
  · intro t p chunks
    simp [send_file, client_close_data_connection]
  · intro t p chunks final
    simp [receive_file, client_close_data_connection]
  · intro t p chunks final
    simp [append_file, client_close_data_connection]
  · intro t dopenOk entries
    simp [send_LIST, client_close_data_connection]
  · intro t path entries h
    simp [send_LIST, client_close_data_connection, h]

theorem transfer_command_step_order_witness :
    send_file .ACTIVE (some ['a']) true true [4] =
      (.NONE, Ev.ioOpen (some ['a']) :: (client_open_data_connection .ACTIVE ++
        [Ev.ctrl 150] ++ [4].map Ev.sendData ++ [Ev.ioClose, Ev.ctrl 226] ++
        Ev.closeDataSock ::
          (if DataConnectionType.ACTIVE = .PASSIVE then [Ev.closePasvSock] else []))) ∧
    ((['m'] : Path) ≠ ['/']) ∧
    send_LIST .PASSIVE ['m'] true [['x']] =
      (.NONE, [Ev.dopen (get_vita_path ['m']), Ev.ctrl 150] ++
        client_open_data_connection .PASSIVE ++ [['x']].map Ev.dataMsg ++
        [Ev.dclose] ++
        Ev.closeDataSock ::
          (if DataConnectionType.PASSIVE = .PASSIVE then [Ev.closePasvSock] else []) ++
        [Ev.ctrl 226]) :=
  ⟨transfer_command_step_order.1 .ACTIVE (some ['a']) [4], by decide,
   transfer_command_step_order.2.2.2.2 .PASSIVE ['m'] [['x']] (by decide)⟩

/-! ### Claim C5: aborted STOR/APPE transfers remove the partial file -/

/-- Claim C5: when the receive loop of `receive_file` (STOR) or
`append_file` (APPE) ends with a negative error instead of a clean
zero-length EOF, the destination file is removed and the 426 line — not
226 — is sent, the removal preceding the 426 reply; on a clean EOF the
file is kept (no remove) and 226 is sent. -/
theorem receive_abort_removes_partial (t : DataConnectionType) (p : Option Path)
    (chunks : List Nat) (final : Int) :
    (final = 0 →
      (Ev.ctrl 226 ∈ (receive_file t p true true chunks final).2 ∧
        Ev.ioRemove p ∉ (receive_file t p true true chunks final).2 ∧
        Ev.ctrl 426 ∉ (receive_file t p true true chunks final).2) ∧
      (Ev.ctrl 226 ∈ (append_file t p true true chunks final).2 ∧
        Ev.ioRemove p ∉ (append_file t p true true chunks final).2 ∧
        Ev.ctrl 426 ∉ (append_file t p true true chunks final).2)) ∧
    (final < 0 →
      (List.Sublist [Ev.ioRemove p, Ev.ctrl 426]
          (receive_file t p true true chunks final).2 ∧
        Ev.ctrl 226 ∉ (receive_file t p true true chunks final).2) ∧
      (List.Sublist [Ev.ioRemove p, Ev.ctrl 426]
          (append_file t p true true chunks final).2 ∧
        Ev.ctrl 226 ∉ (append_file t p true true chunks final).2)) := by
  constructor
  · rintro rfl
    cases t <;>
      simp [receive_file, append_file, client_open_data_connection,
        client_close_data_connection]
  · intro hneg
    have hne : ¬(final = 0) := by omega
    refine ⟨⟨?_, ?_⟩, ⟨?_, ?_⟩⟩
    · simp only [receive_file, client_close_data_connection, if_neg hne]
      norm_num
    · cases t <;>
        simp [receive_file, client_open_data_connection,
          client_close_data_connection, hne]
    · simp only [append_file, client_close_data_connection, if_neg hne]
      norm_num
    · cases t <;>
        simp [append_file, client_open_data_connection,
          client_close_data_connection, hne]

theorem receive_abort_removes_partial_witness :
    (((-1 : Int) = 0) →
      (Ev.ctrl 226 ∈ (receive_file .ACTIVE (some ['a']) true true [3] (-1)).2 ∧
        Ev.ioRemove (some ['a']) ∉ (receive_file .ACTIVE (some ['a']) true true [3] (-1)).2 ∧
        Ev.ctrl 426 ∉ (receive_file .ACTIVE (some ['a']) true true [3] (-1)).2) ∧
      (Ev.ctrl 226 ∈ (append_file .ACTIVE (some ['a']) true true [3] (-1)).2 ∧
        Ev.ioRemove (some ['a']) ∉ (append_file .ACTIVE (some ['a']) true true [3] (-1)).2 ∧
        Ev.ctrl 426 ∉ (append_file .ACTIVE (some ['a']) true true [3] (-1)).2)) ∧
    (((-1 : Int) < 0) →
      (List.Sublist [Ev.ioRemove (some ['a']), Ev.ctrl 426]
          (receive_file .ACTIVE (some ['a']) true true [3] (-1)).2 ∧
        Ev.ctrl 226 ∉ (receive_file .ACTIVE (some ['a']) true true [3] (-1)).2) ∧
      (List.Sublist [Ev.ioRemove (some ['a']), Ev.ctrl 426]
          (append_file .ACTIVE (some ['a']) true true [3] (-1)).2 ∧
        Ev.ctrl 226 ∉ (append_file .ACTIVE (some ['a']) true true [3] (-1)).2)) :=
  receive_abort_removes_partial .ACTIVE (some ['a']) [3] (-1)

/-! ### Claim C6: the bare-root path and storage operations -/

/-- Claim C6 (code bug at the bare root): `get_vita_path` translates a
virtual path by stripping the leading separator and yields no translation
(`NULL`) for a path of length ≤ 1; but the handlers have no guard for that
case — for the command argument `/`, `cmd_RETR_func` hands the `NULL`
translation straight to the storage open (the first boundary event is
`sceIoOpen` with the null path). -/
theorem retr_bare_root_reaches_storage_open :
    get_vita_path ['/', 'a', ':'] = some ['a', ':'] ∧
    get_vita_path ['/'] = Option.none ∧
    gen_filepath ['/'] ['/'] = ['/'] ∧
    (cmd_RETR_func .ACTIVE ['/'] ['/'] false false []).2.head? =
      some (Ev.ioOpen Option.none) := by
  decide

/-! ### Claim C7: a second PASV leaks the first listening socket -/

/-- Claim C7 (code bug): `cmd_PASV_func` creates a fresh data socket and
overwrites the session's `data_sockfd` without ever closing the previous
one; after PASV followed immediately by PASV the first listening socket
(fd 0) is still open in the OS accounting while the session references
only the new socket (fd 1) — the first socket leaks and two data sockets
are open for the one session. -/
theorem pasv_twice_leaks_first_socket :
    (cmd_PASV_func ⟨0, []⟩ ⟨Option.none, .NONE⟩ 0 0).2.1.data_sockfd = some 0 ∧
    0 ∈ (cmd_PASV_func (cmd_PASV_func ⟨0, []⟩ ⟨Option.none, .NONE⟩ 0 0).1
          (cmd_PASV_func ⟨0, []⟩ ⟨Option.none, .NONE⟩ 0 0).2.1 0 0).1.openFds ∧
    1 ∈ (cmd_PASV_func (cmd_PASV_func ⟨0, []⟩ ⟨Option.none, .NONE⟩ 0 0).1
          (cmd_PASV_func ⟨0, []⟩ ⟨Option.none, .NONE⟩ 0 0).2.1 0 0).1.openFds ∧
    (cmd_PASV_func (cmd_PASV_func ⟨0, []⟩ ⟨Option.none, .NONE⟩ 0 0).1
        (cmd_PASV_func ⟨0, []⟩ ⟨Option.none, .NONE⟩ 0 0).2.1 0 0).2.1.data_sockfd =
      some 1 := by
  decide

/-! ### Claims C3 and C8: CWD/CDUP navigation -/

theorem compsSuffix_append_singleton (cs : List Path) (b : Path) :
    compsSuffix (cs ++ [b]) = compsSuffix cs ++ '/' :: b := by
  simp [compsSuffix]

theorem strrchr_idx_comps {b : Path} (cs : List Path) (hb : '/' ∉ b) :
    strrchr_idx (compsSuffix (cs ++ [b])) '/' = some (compsSuffix cs).length := by
  rw [compsSuffix_append_singleton, strrchr_idx_append, strrchr_idx_slash_cons hb]
  simp

theorem path_is_at_root_mount {m : Path} (hm : '/' ∉ m) :
    path_is_at_root ('/' :: m ++ ['/']) := by
  have h1 : ('/' :: m ++ ['/']) = ('/' :: m) ++ ['/'] := by simp
  unfold path_is_at_root
  rw [h1, strrchr_idx_append]
  have h2 : strrchr_idx ['/'] '/' = some 0 := rfl
  rw [h2]
  simp

theorem strrchr_idx_base (m : Path) (cs : List Path) {b : Path} (hb : '/' ∉ b) :
    strrchr_idx ('/' :: m ++ compsSuffix (cs ++ [b])) '/' =
      some (m.length + 1 + (compsSuffix cs).length) := by
  have h1 : ('/' :: m ++ compsSuffix (cs ++ [b])) =
      ('/' :: m) ++ compsSuffix (cs ++ [b]) := by simp
  rw [h1, strrchr_idx_append, strrchr_idx_comps cs hb]
  simp <;> omega

theorem path_is_at_root_deep (m : Path) (cs : List Path) {b : Path}
    (hb : '/' ∉ b) (hbne : b ≠ []) :
    ¬ path_is_at_root ('/' :: m ++ compsSuffix (cs ++ [b])) := by
  have hbl : 0 < b.length := List.length_pos.mpr hbne
  unfold path_is_at_root
  rw [strrchr_idx_base m cs hb]
  simp [compsSuffix_append_singleton]
  omega

theorem cwd_normalize_pathOf (l : List Path) (a : Path)
    (hl : ∀ c ∈ l, c ≠ [] ∧ '/' ∉ c) (ha1 : a ≠ []) (ha2 : '/' ∉ a) :
    cwd_normalize (pathOf l) a = pathOf (l ++ [a]) := by
  have hhead : ¬(a.headD ' ' = '/') := by
    cases a with
    | nil => exact absurd rfl ha1
    | cons x xs => exact fun e => ha2 (by simp [List.headD] at e; simp [e])
  unfold cwd_normalize
  rw [if_neg hhead]
  cases l with
  | nil =>
    show (if strrchr_idx ('/' :: a) '/' = some 0
        then ('/' :: a) ++ ['/'] else ('/' :: a)) = pathOf [a]
    rw [if_pos (strrchr_idx_slash_cons ha2)]
    rfl
  | cons m ms =>
    have hm := hl m (List.mem_cons_self m ms)
    cases ms with
    | nil =>
      have hr : path_is_at_root (pathOf [m]) := path_is_at_root_mount hm.2
      rw [if_pos hr]
      show (if strrchr_idx (pathOf [m] ++ a) '/' = some 0
          then (pathOf [m] ++ a) ++ ['/'] else (pathOf [m] ++ a)) =
        pathOf ([m] ++ [a])
      have hEq : pathOf [m] ++ a = ('/' :: m) ++ '/' :: a := by
        simp [pathOf]
      have h2 : strrchr_idx (pathOf [m] ++ a) '/' = some (m.length + 1) := by
        rw [hEq, strrchr_idx_append, strrchr_idx_slash_cons ha2]
        simp
      rw [if_neg (by rw [h2]; simp)]
      rw [hEq]
      show ('/' :: m) ++ '/' :: a = pathOf [m, a]
      simp [pathOf, compsSuffix]
    | cons c cs =>
      obtain hbad | ⟨cs0, b, hcb⟩ := List.eq_nil_or_concat (c :: cs)
      · exact absurd hbad (by simp)
      rw [List.concat_eq_append] at hcb
      have hb : b ∈ m :: c :: cs := by
        refine List.mem_cons_of_mem m ?_
        rw [hcb]; simp
      have hbv := hl b hb
      have hroot : ¬ path_is_at_root (pathOf (m :: c :: cs)) := by
        show ¬ path_is_at_root ('/' :: m ++ compsSuffix (c :: cs))
        rw [hcb]
        exact path_is_at_root_deep m cs0 hbv.2 hbv.1
      rw [if_neg hroot]
      show (if strrchr_idx (pathOf (m :: c :: cs) ++ '/' :: a) '/' = some 0
          then (pathOf (m :: c :: cs) ++ '/' :: a) ++ ['/']
          else (pathOf (m :: c :: cs) ++ '/' :: a)) =
        pathOf ((m :: c :: cs) ++ [a])
      have h2 : strrchr_idx (pathOf (m :: c :: cs) ++ '/' :: a) '/' =
          some (pathOf (m :: c :: cs)).length := by
        rw [strrchr_idx_append, strrchr_idx_slash_cons ha2]
        simp
      have h3 : ¬(strrchr_idx (pathOf (m :: c :: cs) ++ '/' :: a) '/' = some 0) := by
        rw [h2]
        show ¬(some ('/' :: m ++ compsSuffix (c :: cs)).length = some 0)
        simp
      rw [if_neg h3]
      show ('/' :: m ++ compsSuffix (c :: cs)) ++ '/' :: a =
        '/' :: m ++ compsSuffix (c :: (cs ++ [a]))
      rw [show c :: (cs ++ [a]) = (c :: cs) ++ [a] from rfl,
        compsSuffix_append_singleton]
      simp

theorem pathOf_append_length (l : List Path) (a : Path) :
    2 ≤ (pathOf (l ++ [a])).length := by
  cases l with
  | nil => simp [pathOf]
  | cons m ms =>
    cases ms with
    | nil =>
      show 2 ≤ (pathOf [m, a]).length
      simp [pathOf, compsSuffix] <;> omega
    | cons c cs =>
      show 2 ≤ (pathOf (m :: c :: (cs ++ [a]))).length
      simp [pathOf, compsSuffix] <;> omega

theorem pathOf_append_ne_root (l : List Path) (a : Path) :
    pathOf (l ++ [a]) ≠ ['/'] := by
  intro h
  have := pathOf_append_length l a
  rw [h] at this
  simp at this

theorem cmd_CWD_step_pathOf (probe : Option Path → Bool) (hp : ∀ x, probe x = true)
    (l : List Path) (a : Path) (hl : ∀ c ∈ l, c ≠ [] ∧ '/' ∉ c)
    (ha1 : a ≠ []) (ha2 : '/' ∉ a) (ha3 : a ≠ ['.', '.']) :
    (cmd_CWD_func (pathOf l) (some a) probe).cur = pathOf (l ++ [a]) := by
  have hslash : ¬(a = ['/']) := fun e => ha2 (by simp [e])
  have hN := cwd_normalize_pathOf l a hl ha1 ha2
  have hne : ¬(cwd_normalize (pathOf l) a = ['/']) := by
    rw [hN]; exact pathOf_append_ne_root l a
  simp only [cmd_CWD_func, if_neg hslash, if_neg ha3, if_neg hne, hp, if_pos]
  exact hN

theorem cwd_descend_all_pathOf (probe : Option Path → Bool)
    (hp : ∀ x, probe x = true) (l : List Path)
    (hl : ∀ c ∈ l, c ≠ [] ∧ '/' ∉ c ∧ c ≠ ['.', '.']) :
    l.foldl (fun cur a => (cmd_CWD_func cur (some a) probe).cur) ['/'] = pathOf l := by
  induction l using List.reverseRecOn with
  | nil => rfl
  | append_singleton xs x ih =>
    have hx := hl x (by simp)
    have hxs : ∀ c ∈ xs, c ≠ [] ∧ '/' ∉ c ∧ c ≠ ['.', '.'] :=
      fun c hc => hl c (List.mem_append_left _ hc)
    rw [List.foldl_append, List.foldl_cons, List.foldl_nil, ih hxs]
    exact cmd_CWD_step_pathOf probe hp xs x
      (fun c hc => ⟨(hxs c hc).1, (hxs c hc).2.1⟩) hx.1 hx.2.1 hx.2.2

theorem dir_up_pathOf (l : List Path) (a : Path)
    (hl : ∀ c ∈ l, c ≠ [] ∧ '/' ∉ c) (ha1 : a ≠ []) (ha2 : '/' ∉ a) :
    dir_up (pathOf (l ++ [a])) = pathOf l := by
  have hal : 0 < a.length := List.length_pos.mpr ha1
  cases l with
  | nil =>
    show dir_up (pathOf [a]) = ['/']
    have hlen : ¬((pathOf [a]).length = 1) := by
      simp only [pathOf, List.length_cons, List.length_append, List.length_nil]
      omega
    have hr : path_is_at_root (pathOf [a]) := path_is_at_root_mount ha2
    unfold dir_up
    rw [if_neg hlen, if_pos hr]
  | cons m ms =>
    have hm := hl m (List.mem_cons_self m ms)
    cases ms with
    | nil =>
      show dir_up (pathOf [m, a]) = pathOf [m]
      have hEq : pathOf [m, a] = '/' :: m ++ compsSuffix ([] ++ [a]) := rfl
      have hlen : ¬((pathOf [m, a]).length = 1) := by
        simp [pathOf, compsSuffix] <;> omega
      have hroot : ¬ path_is_at_root (pathOf [m, a]) := by
        rw [hEq]
        exact path_is_at_root_deep m [] ha2 ha1
      unfold dir_up
      rw [if_neg hlen, if_neg hroot]
      have hstr : strrchr_idx (pathOf [m, a]) '/' =
          some (m.length + 1 + (compsSuffix []).length) := by
        rw [hEq]
        exact strrchr_idx_base m [] ha2
      simp only [hstr]
      have htake : (pathOf [m, a]).take
          (m.length + 1 + (compsSuffix []).length) = '/' :: m := by
        rw [show pathOf [m, a] = ('/' :: m) ++ compsSuffix ([] ++ [a]) from by
          rw [hEq] <;> simp]
        exact List.take_left' (by simp [compsSuffix] <;> omega)
      rw [htake, if_pos (strrchr_idx_slash_cons hm.2)]
      rfl
    | cons c cs =>
      show dir_up (pathOf (m :: c :: (cs ++ [a]))) = pathOf (m :: c :: cs)
      have hEq : pathOf (m :: c :: (cs ++ [a])) =
          '/' :: m ++ compsSuffix ((c :: cs) ++ [a]) := rfl
      have hlen : ¬((pathOf (m :: c :: (cs ++ [a]))).length = 1) := by
        simp [pathOf, compsSuffix] <;> omega
      have hroot : ¬ path_is_at_root (pathOf (m :: c :: (cs ++ [a]))) := by
        rw [hEq]
        exact path_is_at_root_deep m (c :: cs) ha2 ha1
      unfold dir_up
      rw [if_neg hlen, if_neg hroot]
      have hstr : strrchr_idx (pathOf (m :: c :: (cs ++ [a]))) '/' =
          some (m.length + 1 + (compsSuffix (c :: cs)).length) := by
        rw [hEq]
        exact strrchr_idx_base m (c :: cs) ha2
      simp only [hstr]
      have htake : (pathOf (m :: c :: (cs ++ [a]))).take
          (m.length + 1 + (compsSuffix (c :: cs)).length) =
          '/' :: m ++ compsSuffix (c :: cs) := by
        rw [show pathOf (m :: c :: (cs ++ [a])) =
            ('/' :: m ++ compsSuffix (c :: cs)) ++ '/' :: a from by
          rw [hEq, compsSuffix_append_singleton] <;> simp]
        exact List.take_left' (by simp <;> omega)
      rw [htake]
      obtain hbad | ⟨cs0, b, hcb⟩ := List.eq_nil_or_concat (c :: cs)
      · exact absurd hbad (by simp)
      rw [List.concat_eq_append] at hcb
      have hb : b ∈ m :: c :: cs := by
        refine List.mem_cons_of_mem m ?_
        rw [hcb]; simp
      have hbv := hl b hb
      have hstr2 : strrchr_idx ('/' :: m ++ compsSuffix (c :: cs)) '/' =
          some (m.length + 1 + (compsSuffix cs0).length) := by
        rw [hcb]
        exact strrchr_idx_base m cs0 hbv.2
      rw [if_neg (by rw [hstr2]; simp)]
      rfl

theorem cdup_iter_pathOf (l : List Path)
    (hl : ∀ c ∈ l, c ≠ [] ∧ '/' ∉ c) :
    (fun p => (cmd_CDUP_func p).1)^[l.length] (pathOf l) = ['/'] := by
  induction l using List.reverseRecOn with
  | nil => rfl
  | append_singleton xs x ih =>
    have hx := hl x (by simp)
    have hxs : ∀ c ∈ xs, c ≠ [] ∧ '/' ∉ c :=
      fun c hc => hl c (List.mem_append_left _ hc)
    rw [List.length_append, List.length_cons, List.length_nil]
    rw [Function.iterate_succ_apply]
    have hstep : (cmd_CDUP_func (pathOf (xs ++ [x]))).1 = pathOf xs :=
      dir_up_pathOf xs x hxs hx.1 hx.2
    rw [hstep]
    exact ih hxs

/-- Claim C8: starting from `/`, any sequence of successful CWD descents
(one path component each, all probes succeeding) followed by the same
number of CDUP operations returns the current path to `/`; and `CWD ..`
at `/` leaves the path at `/`. -/
theorem cwd_descents_cdup_roundtrip (probe : Option Path → Bool) (l : List Path)
    (hp : ∀ x, probe x = true)
    (hl : ∀ c ∈ l, c ≠ [] ∧ '/' ∉ c ∧ c ≠ ['.', '.']) :
    (fun p => (cmd_CDUP_func p).1)^[l.length]
        (l.foldl (fun cur a => (cmd_CWD_func cur (some a) probe).cur) ['/']) =
      ['/'] ∧
    (cmd_CWD_func ['/'] (some ['.', '.']) probe).cur = ['/'] := by
  constructor
  · rw [cwd_descend_all_pathOf probe hp l hl]
    exact cdup_iter_pathOf l (fun c hc => ⟨(hl c hc).1, (hl c hc).2.1⟩)
  · simp [cmd_CWD_func, dir_up, path_is_at_root, strrchr_idx]

theorem cwd_descents_cdup_roundtrip_witness :
    (∀ x, (fun _ : Option Path => true) x = true) ∧
    (∀ c ∈ ([['m', ':'], ['a']] : List Path), c ≠ [] ∧ '/' ∉ c ∧ c ≠ ['.', '.']) ∧
    ((fun p => (cmd_CDUP_func p).1)^[([['m', ':'], ['a']] : List Path).length]
        (([['m', ':'], ['a']] : List Path).foldl
          (fun cur a => (cmd_CWD_func cur (some a) (fun _ => true)).cur) ['/']) =
      ['/'] ∧
     (cmd_CWD_func ['/'] (some ['.', '.']) (fun _ => true)).cur = ['/']) :=
  ⟨fun _ => rfl, by decide,
   cwd_descents_cdup_roundtrip (fun _ => true) [['m', ':'], ['a']]
     (fun _ => rfl) (by decide)⟩

/-- Claim C3 is false as stated: `CWD ..` from `/m:/a/b` with every
directory probe failing still commits the new current path `/m:/a` — a
path that is neither the namespace root nor a mount root — while
performing no probe at all and replying 250, not 550. -/
theorem cwd_dotdot_commits_without_probe :
    (cmd_CWD_func ['/', 'm', ':', '/', 'a', '/', 'b'] (some ['.', '.'])
        (fun _ => false)).cur = ['/', 'm', ':', '/', 'a'] ∧
    (['/', 'm', ':', '/', 'a'] : Path) ≠ ['/', 'm', ':', '/', 'a', '/', 'b'] ∧
    (['/', 'm', ':', '/', 'a'] : Path) ≠ ['/'] ∧
    ¬ path_is_at_root ['/', 'm', ':', '/', 'a'] ∧
    (cmd_CWD_func ['/', 'm', ':', '/', 'a', '/', 'b'] (some ['.', '.'])
        (fun _ => false)).probes = [] ∧
    (cmd_CWD_func ['/', 'm', ':', '/', 'a', '/', 'b'] (some ['.', '.'])
        (fun _ => false)).replies = [250] := by
  decide

/-- Claim C3 (amended): for every CWD command whose argument is neither
`/` nor `..` and whose normalized result path is not the namespace root,
the result is probed with a directory open before `cur_path` is updated;
if the probe fails the only reply is 550 and `cur_path` is unchanged, and
if it succeeds the path is committed with reply 250.  (The `..` branch —
CDUP-style navigation — updates `cur_path` without any probe, which is
what refutes the unrestricted claim.) -/
theorem cwd_probe_before_commit (cur a : Path) (probe : Option Path → Bool)
    (ha1 : a ≠ ['/']) (ha2 : a ≠ ['.', '.'])
    (hne : cwd_normalize cur a ≠ ['/']) :
    (cmd_CWD_func cur (some a) probe).probes =
      [get_vita_path (cwd_normalize cur a)] ∧
    (probe (get_vita_path (cwd_normalize cur a)) = false →
      (cmd_CWD_func cur (some a) probe).cur = cur ∧
      (cmd_CWD_func cur (some a) probe).replies = [550]) ∧
    (probe (get_vita_path (cwd_normalize cur a)) = true →
      (cmd_CWD_func cur (some a) probe).cur = cwd_normalize cur a ∧
      (cmd_CWD_func cur (some a) probe).replies = [250]) := by
  cases h : probe (get_vita_path (cwd_normalize cur a)) <;>
    simp [cmd_CWD_func, ha1, ha2, hne, h]

theorem cwd_probe_before_commit_witness :
    (cmd_CWD_func ['/'] (some ['m', ':']) (fun _ => false)).probes =
      [get_vita_path (cwd_normalize ['/'] ['m', ':'])] ∧
    (false = false →
      (cmd_CWD_func ['/'] (some ['m', ':']) (fun _ => false)).cur = ['/'] ∧
      (cmd_CWD_func ['/'] (some ['m', ':']) (fun _ => false)).replies = [550]) ∧
    (false = true →
      (cmd_CWD_func ['/'] (some ['m', ':']) (fun _ => false)).cur =
        cwd_normalize ['/'] ['m', ':'] ∧
      (cmd_CWD_func ['/'] (some ['m', ':']) (fun _ => false)).replies = [250]) :=
  cwd_probe_before_commit ['/'] ['m', ':'] (fun _ => false)
    (by decide) (by decide) (by decide)

end FTPVita
